import Mathlib

/-!
Verification of the bevy_ambient_cg material-import core against its
natural-language specification.

The development shallowly embeds the two source revisions
(`src/ambient_cg.rs`, modelled in namespace `ACG`, and `src/lib.rs`,
modelled in namespace `Lib`).  Shared data (the resolution enumeration,
the material descriptor, path construction, grayscale/RGB images and the
channel packer) is identical in both revisions and is defined once at top
level.  Filesystem existence is an oracle `List String → Bool` over paths
represented as component lists; image decoding plus grayscale conversion
is an oracle `List String → Option GrayImage`.  Panics in the source
(`panic!` on negotiation failure, `expect` on decode failure, `assert_eq!`
on dimension mismatch) are modelled as `Except` errors, so a failed load
produces no material value by construction.
-/

/-- The ordered resolution enumeration `AmbientCGResolution`
(identical in both source revisions). -/
inductive AmbientCGResolution where
  | oneK
  | twoK
  | fourK
  | eightK
  | twelveK
  | sixteenK
deriving DecidableEq, Repr

/-- Position of a tier in the order 1K < 2K < 4K < 8K < 12K < 16K. -/
def tierIdx : AmbientCGResolution → Nat
  | .oneK => 0
  | .twoK => 1
  | .fourK => 2
  | .eightK => 3
  | .twelveK => 4
  | .sixteenK => 5

/-- The `Display` implementation for `AmbientCGResolution`
(identical in both source revisions). -/
def AmbientCGResolution.display : AmbientCGResolution → String
  | .oneK => "1K"
  | .twoK => "2K"
  | .fourK => "4K"
  | .eightK => "8K"
  | .twelveK => "12K"
  | .sixteenK => "16K"

namespace ACG

/-- Error kinds of `src/ambient_cg.rs` (`AmbientCGErrorType`): this
revision has both `NoSmallerRes` and a (never-constructed) `NotFound`. -/
inductive AmbientCGErrorType where
  | noSmallerRes
  | notFound
deriving DecidableEq, Repr

/-- The newtype wrapper `AmbientCGImportError(AmbientCGErrorType)`. -/
structure AmbientCGImportError where
  kind : AmbientCGErrorType
deriving DecidableEq, Repr

/-- `AmbientCGResolution::next_smaller` from `src/ambient_cg.rs`:
the smallest tier fails with `NoSmallerRes`. -/
def next_smaller : AmbientCGResolution →
    Except AmbientCGImportError AmbientCGResolution
  | .oneK => .error ⟨.noSmallerRes⟩
  | .twoK => .ok .oneK
  | .fourK => .ok .twoK
  | .eightK => .ok .fourK
  | .twelveK => .ok .eightK
  | .sixteenK => .ok .twelveK

end ACG

namespace Lib

/-- Error kinds of `src/lib.rs` (`AmbientCGErrorType`): this revision
only has `NotFound`. -/
inductive AmbientCGErrorType where
  | notFound
deriving DecidableEq, Repr

/-- The newtype wrapper `AmbientCGImportError(AmbientCGErrorType)`. -/
structure AmbientCGImportError where
  kind : AmbientCGErrorType
deriving DecidableEq, Repr

/-- `AmbientCGResolution::next_smaller` from `src/lib.rs`:
the smallest tier fails with `NotFound`. -/
def next_smaller : AmbientCGResolution →
    Except AmbientCGImportError AmbientCGResolution
  | .oneK => .error ⟨.notFound⟩
  | .twoK => .ok .oneK
  | .fourK => .ok .twoK
  | .eightK => .ok .fourK
  | .twelveK => .ok .eightK
  | .sixteenK => .ok .twelveK

end Lib

/-- Helper: a successful `next_smaller` step decrements the tier index
by exactly one (immediate predecessor). -/
theorem ACG.next_smaller_idx {t p : AmbientCGResolution}
    (h : ACG.next_smaller t = .ok p) : tierIdx t = tierIdx p + 1 := by
  cases t <;> cases p <;> simp_all [ACG.next_smaller, tierIdx]

/-- Helper: `tierIdx` is injective. -/
theorem tierIdx_injective {t₁ t₂ : AmbientCGResolution}
    (h : tierIdx t₁ = tierIdx t₂) : t₁ = t₂ := by
  cases t₁ <;> cases t₂ <;> simp_all [tierIdx]

/-- C2: for every tier T, `next_smaller` succeeds exactly when it returns
the immediate predecessor of T in the order 1K < 2K < 4K < 8K < 12K < 16K
(captured by `tierIdx`); the smallest tier 1K instead fails with the
tier-exhaustion error, named `NoSmallerRes` in `src/ambient_cg.rs` and
`NotFound` in `src/lib.rs` (the spec's `NoSmallerTier`). -/
theorem next_smaller_immediate_predecessor :
    (∀ t p, ACG.next_smaller t = .ok p ↔ tierIdx t = tierIdx p + 1) ∧
    (∀ t, t = .oneK ∨
      ∃ p, ACG.next_smaller t = .ok p ∧ tierIdx t = tierIdx p + 1) ∧
    ACG.next_smaller .oneK = .error ⟨.noSmallerRes⟩ ∧
    Lib.next_smaller .oneK = .error ⟨.notFound⟩ := by
  refine ⟨fun t p => ?_, fun t => ?_, rfl, rfl⟩
  · cases t <;> cases p <;> simp [ACG.next_smaller, tierIdx]
  · cases t <;> simp [ACG.next_smaller, tierIdx]

/-! ## Paths

A filesystem path is modelled as its list of components, mirroring how
Rust's `PathBuf`/`Path` compare and iterate paths.  `pathPush` models
`PathBuf::push` (splitting the pushed string on the separator, dropping
empty and current-directory components, and replacing the whole path when
the pushed string is absolute); `withExtFileName` models
`Path::with_extension` acting on a file name (replace the portion after
the final dot, or append a dotted extension when there is none, with the
leading-dot special case of Rust's `file_stem`). -/

/-- Path as a list of components. -/
abbrev PathC := List String

/-- Split a character list at every occurrence of `c` (the pieces do not
contain `c`). -/
def splitOnChar (c : Char) : List Char → List (List Char)
  | [] => [[]]
  | x :: xs =>
    match splitOnChar c xs with
    | [] => [[]]
    | h :: t => if x = c then [] :: h :: t else (x :: h) :: t

/-- The path components denoted by a string: split on the separator,
dropping empty and `.` pieces (as Rust's `Components` normalization
does). -/
def components (s : String) : List String :=
  ((splitOnChar '/' s.data).filter
    (fun l => !l.isEmpty && !(l == ['.']))).map (fun l => String.mk l)

/-- `PathBuf::push`: an absolute argument replaces the path, otherwise
its components are appended. -/
def pathPush (p : PathC) (s : String) : PathC :=
  if s.data.head? = some '/' then components s else p ++ components s

/-- `Path::with_extension` restricted to a single file name: replace the
extension (the portion after the final `.`, absent when there is no `.`
or when the name starts with `.` and has no other `.`). -/
def withExtFileName (f ext : String) : String :=
  let parts := splitOnChar '.' f.data
  if parts.length ≤ 1 then f ++ "." ++ ext
  else if f.data.head? = some '.' ∧ parts.length = 2 then f ++ "." ++ ext
  else String.intercalate "." (parts.dropLast.map (fun l => String.mk l))
    ++ "." ++ ext

/-- `dir.join(s).with_extension(ext)` as used by the path builder: push
`s`, then replace the extension of the final component. -/
def joinWithExtension (dir : PathC) (s ext : String) : PathC :=
  match (pathPush dir s).reverse with
  | [] => []
  | last :: restRev => restRev.reverse ++ [withExtFileName last ext]

/-- 2D scale factor (bevy `Vec2`); no claim depends on float arithmetic,
only on construction and comparison with zero, so rationals stand in for
the two float components. -/
abbrev Vec2 := ℚ × ℚ

/-- The material descriptor `AmbientCGMaterial`
(identical in both source revisions). -/
structure AmbientCGMaterial where
  name : String
  resolution : AmbientCGResolution
  subfolder : Option String
  uv_scale : Option Vec2
deriving DecidableEq, Repr

/-- The configuration record `AmbientCGConfig`; the process-wide statics
`MATERIALS_PATH` / `RESOLUTION_NEGOTIATION` that `load_with_uv_scale`
reads always hold these two values, so the model passes them
explicitly. -/
structure AmbientCGConfig where
  materials_path : String
  resolution_negotiation : Bool
deriving DecidableEq, Repr

/-- `absolute_resource_path`: prefixes the host base path (an opaque
parameter) and the literal `assets` component
(identical in both source revisions). -/
def absolute_resource_path (base : PathC) (p : PathC) : PathC :=
  base ++ components "assets" ++ p

namespace ACG

/-- `AmbientCGMaterial::negotiate_resolution` from `src/ambient_cg.rs`:
build the directory name `<name>_<tier>-JPG` at the current tier; if the
existence oracle `e` rejects its absolute path, retry at `next_smaller`
(propagating its error), else return the descriptor unchanged. -/
def negotiate_resolution (e : PathC → Bool) (base : PathC)
    (materials_path : PathC) (m : AmbientCGMaterial) :
    Except AmbientCGImportError AmbientCGMaterial :=
  let constructed_material_name :=
    m.name ++ "_" ++ m.resolution.display ++ "-JPG"
  let resource_path := pathPush materials_path constructed_material_name
  if !(e (absolute_resource_path base resource_path)) then
    match h : next_smaller m.resolution with
    | .error err => .error err
    | .ok r =>
      negotiate_resolution e base materials_path
        { name := m.name, resolution := r,
          subfolder := m.subfolder, uv_scale := m.uv_scale }
  else
    .ok m
termination_by tierIdx m.resolution
decreasing_by
  have h2 := ACG.next_smaller_idx h
  omega

/-- The absolute directory path whose existence `negotiate_resolution`
checks for name `name` at tier `t`. -/
def tier_dir_path (base mp : PathC) (name : String)
    (t : AmbientCGResolution) : PathC :=
  absolute_resource_path base (pathPush mp (name ++ "_" ++ t.display ++ "-JPG"))

/-- Number of invocations (initial call plus recursive calls) performed
by `negotiate_resolution`; one existence check happens per invocation. -/
def negotiate_resolution_steps (e : PathC → Bool) (base mp : PathC)
    (m : AmbientCGMaterial) : Nat :=
  let constructed_material_name :=
    m.name ++ "_" ++ m.resolution.display ++ "-JPG"
  let resource_path := pathPush mp constructed_material_name
  if !(e (absolute_resource_path base resource_path)) then
    match h : next_smaller m.resolution with
    | .error _ => 1
    | .ok r =>
      1 + negotiate_resolution_steps e base mp
        { name := m.name, resolution := r,
          subfolder := m.subfolder, uv_scale := m.uv_scale }
  else
    1
termination_by tierIdx m.resolution
decreasing_by
  have h2 := ACG.next_smaller_idx h
  omega

end ACG

/-- C7: negotiation is idempotent: when the expected directory for the
descriptor's current tier exists, `negotiate_resolution` returns the
descriptor unchanged (same name, tier, subfolder and uv_scale). -/
theorem negotiate_resolution_idempotent
    (e : PathC → Bool) (base mp : PathC) (m : AmbientCGMaterial)
    (h : e (ACG.tier_dir_path base mp m.name m.resolution) = true) :
    ACG.negotiate_resolution e base mp m = .ok m := by
  rw [ACG.negotiate_resolution]
  simp only [ACG.tier_dir_path] at h
  simp [h]

/-- Witness for C7 at a concrete descriptor and an all-true oracle. -/
theorem negotiate_resolution_idempotent_witness :
    ACG.negotiate_resolution (fun _ => true) [] ["materials"]
      { name := "Bricks001", resolution := .fourK,
        subfolder := none, uv_scale := none } =
    .ok { name := "Bricks001", resolution := .fourK,
          subfolder := none, uv_scale := none } :=
  negotiate_resolution_idempotent (fun _ => true) [] ["materials"] _ rfl

/-- C6: whenever `negotiate_resolution` succeeds, it preserves name,
subfolder and uv_scale, never returns a tier above the requested one, the
returned tier's directory exists, and every tier strictly between the
returned and the requested one (inclusive) was found missing — i.e. the
descent visits each intermediate tier, skipping none and never searching
upward. -/
theorem negotiate_resolution_monotone_descent
    (e : PathC → Bool) (base mp : PathC) (m m' : AmbientCGMaterial)
    (h : ACG.negotiate_resolution e base mp m = .ok m') :
    m'.name = m.name ∧ m'.subfolder = m.subfolder ∧
    m'.uv_scale = m.uv_scale ∧
    tierIdx m'.resolution ≤ tierIdx m.resolution ∧
    e (ACG.tier_dir_path base mp m.name m'.resolution) = true ∧
    (∀ t, tierIdx m'.resolution < tierIdx t →
      tierIdx t ≤ tierIdx m.resolution →
      e (ACG.tier_dir_path base mp m.name t) = false) := by
  suffices H : ∀ n (m m' : AmbientCGMaterial), tierIdx m.resolution ≤ n →
      ACG.negotiate_resolution e base mp m = .ok m' →
      m'.name = m.name ∧ m'.subfolder = m.subfolder ∧
      m'.uv_scale = m.uv_scale ∧
      tierIdx m'.resolution ≤ tierIdx m.resolution ∧
      e (ACG.tier_dir_path base mp m.name m'.resolution) = true ∧
      (∀ t, tierIdx m'.resolution < tierIdx t →
        tierIdx t ≤ tierIdx m.resolution →
        e (ACG.tier_dir_path base mp m.name t) = false) by
    exact H (tierIdx m.resolution) m m' le_rfl h
  clear h m m'
  intro n
  induction n with
  | zero =>
    intro m m' hle h
    rw [ACG.negotiate_resolution] at h
    simp only [ACG.tier_dir_path]
    cases he : e (absolute_resource_path base
        (pathPush mp (m.name ++ "_" ++ m.resolution.display ++ "-JPG"))) with
    | true =>
      simp only [he, Bool.not_true, Bool.false_eq_true, if_false,
        Except.ok.injEq] at h
      subst h
      refine ⟨rfl, rfl, rfl, le_rfl, he, ?_⟩
      intro t h1 h2
      omega
    | false =>
      simp only [he, Bool.not_false, if_true] at h
      cases hn : ACG.next_smaller m.resolution with
      | error err => rw [hn] at h; simp at h
      | ok r =>
        have hidx := ACG.next_smaller_idx hn
        omega
  | succ n ih =>
    intro m m' hle h
    rw [ACG.negotiate_resolution] at h
    simp only [ACG.tier_dir_path]
    cases he : e (absolute_resource_path base
        (pathPush mp (m.name ++ "_" ++ m.resolution.display ++ "-JPG"))) with
    | true =>
      simp only [he, Bool.not_true, Bool.false_eq_true, if_false,
        Except.ok.injEq] at h
      subst h
      refine ⟨rfl, rfl, rfl, le_rfl, he, ?_⟩
      intro t h1 h2
      omega
    | false =>
      simp only [he, Bool.not_false, if_true] at h
      cases hn : ACG.next_smaller m.resolution with
      | error err => rw [hn] at h; simp at h
      | ok r =>
        rw [hn] at h
        have hidx := ACG.next_smaller_idx hn
        have hler : tierIdx r ≤ n := by omega
        obtain ⟨h1, h2, h3, h4, h5, h6⟩ := ih _ m' hler h
        simp only [ACG.tier_dir_path] at h5 h6
        have h4' : tierIdx m'.resolution ≤ tierIdx r := h4
        refine ⟨h1, h2, h3, by omega, h5, ?_⟩
        intro t ht1 ht2
        by_cases htr : tierIdx t ≤ tierIdx r
        · exact h6 t ht1 htr
        · have hteq : tierIdx t = tierIdx m.resolution := by omega
          have hteq2 := tierIdx_injective hteq
          subst hteq2
          exact he

/-- Witness for C6: with an all-true oracle, negotiation at 4K succeeds
immediately and the returned tier does not exceed the requested 4K. -/
theorem negotiate_resolution_monotone_descent_witness :
    ACG.negotiate_resolution (fun _ => true) [] ["materials"]
      { name := "Bricks001", resolution := .fourK,
        subfolder := none, uv_scale := none } =
    .ok { name := "Bricks001", resolution := .fourK,
          subfolder := none, uv_scale := none } ∧
    tierIdx ({ name := "Bricks001", resolution := .fourK,
               subfolder := none, uv_scale := none } :
             AmbientCGMaterial).resolution ≤
      tierIdx AmbientCGResolution.fourK := by
  have h0 : ACG.negotiate_resolution (fun _ => true) [] ["materials"]
      { name := "Bricks001", resolution := .fourK,
        subfolder := none, uv_scale := none } =
      .ok { name := "Bricks001", resolution := .fourK,
            subfolder := none, uv_scale := none } := by
    simp [ACG.negotiate_resolution]
  exact ⟨h0,
    (negotiate_resolution_monotone_descent _ _ _ _ _ h0).2.2.2.1⟩

/-- C10: `negotiate_resolution` terminates (it is a total function in
this embedding); each recursive step strictly decreases the tier, and for
every oracle and starting descriptor the number of invocations —
`negotiate_resolution_steps`, one existence check each — is at most
`tierIdx + 1 ≤ 6`. -/
theorem negotiate_resolution_terminates :
    (∀ t r, ACG.next_smaller t = .ok r → tierIdx r < tierIdx t) ∧
    (∀ (e : PathC → Bool) (base mp : PathC) (m : AmbientCGMaterial),
      ACG.negotiate_resolution_steps e base mp m ≤
        tierIdx m.resolution + 1 ∧
      tierIdx m.resolution + 1 ≤ 6) := by
  constructor
  · intro t r h
    have := ACG.next_smaller_idx h
    omega
  · intro e base mp
    suffices H : ∀ n (m : AmbientCGMaterial), tierIdx m.resolution ≤ n →
        ACG.negotiate_resolution_steps e base mp m ≤
          tierIdx m.resolution + 1 by
      intro m
      refine ⟨H (tierIdx m.resolution) m le_rfl, ?_⟩
      cases hr : m.resolution <;> simp [tierIdx]
    intro n
    induction n with
    | zero =>
      intro m hle
      rw [ACG.negotiate_resolution_steps]
      cases he : e (absolute_resource_path base
          (pathPush mp (m.name ++ "_" ++ m.resolution.display ++ "-JPG"))) with
      | true => simp [he]
      | false =>
        simp only [he, Bool.not_false, if_true]
        cases hn : ACG.next_smaller m.resolution with
        | error err => simp
        | ok r =>
          have hidx := ACG.next_smaller_idx hn
          omega
    | succ n ih =>
      intro m hle
      rw [ACG.negotiate_resolution_steps]
      cases he : e (absolute_resource_path base
          (pathPush mp (m.name ++ "_" ++ m.resolution.display ++ "-JPG"))) with
      | true => simp [he]
      | false =>
        simp only [he, Bool.not_false, if_true]
        cases hn : ACG.next_smaller m.resolution with
        | error err => simp
        | ok r =>
          have hidx := ACG.next_smaller_idx hn
          have hler : tierIdx r ≤ n := by omega
          have hstep : ACG.negotiate_resolution_steps e base mp
              { name := m.name, resolution := r,
                subfolder := m.subfolder, uv_scale := m.uv_scale } ≤
              tierIdx r + 1 :=
            ih { name := m.name, resolution := r,
                 subfolder := m.subfolder, uv_scale := m.uv_scale } hler
          simp only
          omega

/-! ## Path builder (§4.2) -/

/-- The six texture channels. -/
inductive Channel where
  | ambientOcclusion
  | color
  | displacement
  | metalness
  | normalGL
  | roughness
deriving DecidableEq, Repr

/-- The per-channel file-name suffix used by `load_with_uv_scale`. -/
def channelSuffix : Channel → String
  | .ambientOcclusion => "_AmbientOcclusion"
  | .color => "_Color"
  | .displacement => "_Displacement"
  | .metalness => "_Metalness"
  | .normalGL => "_NormalGL"
  | .roughness => "_Roughness"

/-- The channel-file path constructed by `load_with_uv_scale`
(lines 163-188 of `src/ambient_cg.rs`, identical in `src/lib.rs`): the
materials root, the optional subfolder, the directory
`<name>_<tier>-JPG`, then `<name>_<tier>-JPG<suffix>` with extension
`jpg`. -/
def channel_path (materials_path name : String) (res : AmbientCGResolution)
    (subfolder : Option String) (suffix : String) : PathC :=
  let material_path := pathPush [] materials_path
  let material_path := match subfolder with
    | some s => pathPush material_path s
    | none => material_path
  let constructed_material_name := name ++ "_" ++ res.display ++ "-JPG"
  let material_path := pathPush material_path constructed_material_name
  joinWithExtension material_path (constructed_material_name ++ suffix) "jpg"

/-- Splitting a list free of the separator yields the single piece. -/
theorem splitOnChar_not_mem {c : Char} :
    ∀ {l : List Char}, c ∉ l → splitOnChar c l = [l] := by
  intro l
  induction l with
  | nil => intro _; rfl
  | cons x xs ih =>
    intro h
    have hx : ¬x = c := fun hc => h (hc ▸ List.mem_cons_self x xs)
    have hxs : c ∉ xs := fun hc => h (List.mem_cons_of_mem x hc)
    rw [splitOnChar, ih hxs]
    simp [hx]

/-- A nonempty separator-free string that is not `.` denotes the single
component consisting of itself. -/
theorem components_eq_single {s : String} (hne : s.data ≠ [])
    (hslash : '/' ∉ s.data) (hdot : s.data ≠ ['.']) :
    components s = [s] := by
  rw [components, splitOnChar_not_mem hslash]
  have h1 : s.data.isEmpty = false := by
    cases hd : s.data with
    | nil => exact absurd hd hne
    | cons a l => rfl
  have h2 : (s.data == ['.']) = false := beq_eq_false_iff_ne.mpr hdot
  simp only [List.filter, h1, h2, Bool.not_false, Bool.and_self,
    List.map]

/-- Pushing a clean relative component appends exactly it. -/
theorem pathPush_single (p : PathC) {s : String} (hne : s.data ≠ [])
    (hslash : '/' ∉ s.data) (hdot : s.data ≠ ['.']) :
    pathPush p s = p ++ [s] := by
  have hhead : ¬s.data.head? = some '/' := by
    cases hd : s.data with
    | nil => simp
    | cons a l =>
      simp only [List.head?, Option.some.injEq]
      intro ha
      exact hslash (by rw [hd, ha]; exact List.mem_cons_self _ _)
  rw [pathPush, if_neg hhead, components_eq_single hne hslash hdot]

/-- `with_extension` on a dot-free file name appends the dotted
extension. -/
theorem withExtFileName_no_dot {f : String} (h : '.' ∉ f.data)
    (ext : String) : withExtFileName f ext = f ++ "." ++ ext := by
  rw [withExtFileName]
  simp only [splitOnChar_not_mem h, List.length_singleton]
  rfl

/-- `join(s).with_extension(ext)` with a clean single-component `s`
appends the extension-adjusted file name. -/
theorem joinWithExtension_single (dir : PathC) {s : String}
    (hne : s.data ≠ []) (hslash : '/' ∉ s.data) (hdot : s.data ≠ ['.'])
    (ext : String) :
    joinWithExtension dir s ext = dir ++ [withExtFileName s ext] := by
  rw [joinWithExtension, pathPush_single dir hne hslash hdot]
  simp

/-- Splitting at the last occurrence of a separator is unique: when the
parts after the separator are separator-free, both split points agree. -/
theorem sep_append_inj {c : Char} :
    ∀ (a : List Char) {b t₁ t₂ : List Char}, c ∉ t₁ → c ∉ t₂ →
      a ++ c :: t₁ = b ++ c :: t₂ → a = b ∧ t₁ = t₂ := by
  intro a
  induction a with
  | nil =>
    intro b t₁ t₂ h1 h2 h
    cases b with
    | nil => simpa using h
    | cons y b' =>
      simp only [List.nil_append, List.cons_append, List.cons.injEq] at h
      have hmem : c ∈ t₁ := by
        rw [h.2]
        exact List.mem_append_right _ (List.mem_cons_self _ _)
      exact absurd hmem h1
  | cons x a' ih =>
    intro b t₁ t₂ h1 h2 h
    cases b with
    | nil =>
      simp only [List.cons_append, List.nil_append, List.cons.injEq] at h
      have hmem : c ∈ t₂ := by
        rw [← h.2]
        exact List.mem_append_right _ (List.mem_cons_self _ _)
      exact absurd hmem h2
    | cons y b' =>
      simp only [List.cons_append, List.cons.injEq] at h
      obtain ⟨hxy, hrest⟩ := h
      obtain ⟨hab, ht⟩ := ih h1 h2 hrest
      exact ⟨by rw [hxy, hab], ht⟩

/-- Strings are determined by their character data. -/
theorem stringDataInj {s t : String} (h : s.data = t.data) : s = t := by
  cases s
  cases t
  exact congrArg String.mk h

/-- Last-underscore splitting lifted to strings: with underscore-free
right parts, `n ++ "_" ++ u` determines `n` and `u`. -/
theorem string_underscore_inj {n₁ n₂ u₁ u₂ : String}
    (h1 : '_' ∉ u₁.data) (h2 : '_' ∉ u₂.data)
    (h : n₁ ++ "_" ++ u₁ = n₂ ++ "_" ++ u₂) : n₁ = n₂ ∧ u₁ = u₂ := by
  have hd : n₁.data ++ '_' :: u₁.data = n₂.data ++ '_' :: u₂.data := by
    have := congrArg String.data h
    simpa [String.data_append] using this
  obtain ⟨ha, hb⟩ := sep_append_inj n₁.data h1 h2 hd
  exact ⟨stringDataInj ha, stringDataInj hb⟩

/-- String append is cancellative on the left. -/
theorem string_append_cancel_left {a b c : String} (h : a ++ b = a ++ c) :
    b = c := by
  have := congrArg String.data h
  simp only [String.data_append] at this
  exact stringDataInj (List.append_cancel_left this)

/-- String append is cancellative on the right. -/
theorem string_append_cancel_right {a b c : String} (h : a ++ c = b ++ c) :
    a = b := by
  have := congrArg String.data h
  simp only [String.data_append] at this
  exact stringDataInj (List.append_cancel_right this)

/-- Membership in appended string data. -/
theorem not_mem_string_append {a b : String} {ch : Char}
    (ha : ch ∉ a.data) (hb : ch ∉ b.data) : ch ∉ (a ++ b).data := by
  simp only [String.data_append, List.mem_append, not_or]
  exact ⟨ha, hb⟩

/-- An appended string with nonempty right part has nonempty data. -/
theorem string_append_ne_nil {a b : String} (hb : b.data ≠ []) :
    (a ++ b).data ≠ [] := by
  simp only [String.data_append]
  intro h
  exact hb (List.append_eq_nil.mp h).2

/-- The rendered tier plus the `-JPG` format tag contains no
underscore. -/
theorem display_JPG_underscore_free (t : AmbientCGResolution) :
    '_' ∉ (t.display ++ "-JPG").data := by
  cases t <;> decide

/-- The rendered tier plus the `-JPG` format tag contains no dot. -/
theorem display_JPG_dot_free (t : AmbientCGResolution) :
    '.' ∉ (t.display ++ "-JPG").data := by
  cases t <;> decide

/-- The rendered tier plus the `-JPG` format tag contains no slash. -/
theorem display_JPG_slash_free (t : AmbientCGResolution) :
    '/' ∉ (t.display ++ "-JPG").data := by
  cases t <;> decide

/-- The rendered tier plus the `-JPG` format tag determines the tier. -/
theorem display_JPG_inj {t₁ t₂ : AmbientCGResolution}
    (h : t₁.display ++ "-JPG" = t₂.display ++ "-JPG") : t₁ = t₂ := by
  cases t₁ <;> cases t₂ <;> first | rfl | exact absurd h (by decide)

/-- Channel suffixes are pairwise distinct. -/
theorem channelSuffix_inj {c₁ c₂ : Channel}
    (h : channelSuffix c₁ = channelSuffix c₂) : c₁ = c₂ := by
  cases c₁ <;> cases c₂ <;> first | rfl | exact absurd h (by decide)

/-- Channel suffixes contain no dot. -/
theorem channelSuffix_dot_free (c : Channel) :
    '.' ∉ (channelSuffix c).data := by
  cases c <;> decide

/-- Channel suffixes contain no slash. -/
theorem channelSuffix_slash_free (c : Channel) :
    '/' ∉ (channelSuffix c).data := by
  cases c <;> decide

/-- A subfolder argument is clean when absent, or a present, nonempty
single component without separator or dot. -/
def cleanSub : Option String → Prop
  | none => True
  | some s => s.data ≠ [] ∧ '/' ∉ s.data ∧ '.' ∉ s.data

/-- Normal form of `channel_path` for clean names, subfolders and
suffixes: root components, optional subfolder component, the tier
directory, and the suffixed file name with the appended `jpg`
extension. -/
theorem channel_path_eq (mp name : String) (t : AmbientCGResolution)
    (sf : Option String) (sfx : String)
    (hn1 : '/' ∉ name.data) (hn2 : '.' ∉ name.data)
    (hsf : cleanSub sf) (hsfx1 : '/' ∉ sfx.data) (hsfx2 : '.' ∉ sfx.data) :
    channel_path mp name t sf sfx =
      pathPush [] mp ++
        ((match sf with | some s => [s] | none => []) ++
          [name ++ "_" ++ t.display ++ "-JPG",
           name ++ "_" ++ t.display ++ "-JPG" ++ sfx ++ "." ++ "jpg"]) := by
  have hstem_ne : (name ++ "_" ++ t.display ++ "-JPG").data ≠ [] := by
    apply string_append_ne_nil
    decide
  have hstem_slash : '/' ∉ (name ++ "_" ++ t.display ++ "-JPG").data := by
    rw [String.append_assoc]
    exact not_mem_string_append
      (not_mem_string_append hn1 (by decide))
      (display_JPG_slash_free t)
  have hstem_dot : '.' ∉ (name ++ "_" ++ t.display ++ "-JPG").data := by
    rw [String.append_assoc]
    exact not_mem_string_append
      (not_mem_string_append hn2 (by decide))
      (display_JPG_dot_free t)
  have hstem_ne_dot : (name ++ "_" ++ t.display ++ "-JPG").data ≠ ['.'] := by
    intro hcon
    exact hstem_dot (hcon ▸ List.mem_cons_self _ _)
  have hfile_ne : ((name ++ "_" ++ t.display ++ "-JPG") ++ sfx).data ≠ [] := by
    simp only [String.data_append]
    intro hcon
    exact hstem_ne (List.append_eq_nil.mp hcon).1
  have hfile_slash : '/' ∉ ((name ++ "_" ++ t.display ++ "-JPG") ++ sfx).data :=
    not_mem_string_append hstem_slash hsfx1
  have hfile_dot : '.' ∉ ((name ++ "_" ++ t.display ++ "-JPG") ++ sfx).data :=
    not_mem_string_append hstem_dot hsfx2
  have hfile_ne_dot :
      ((name ++ "_" ++ t.display ++ "-JPG") ++ sfx).data ≠ ['.'] := by
    intro hcon
    exact hfile_dot (hcon ▸ List.mem_cons_self _ _)
  cases sf with
  | none =>
    rw [channel_path]
    simp only
    rw [pathPush_single _ hstem_ne hstem_slash hstem_ne_dot,
      joinWithExtension_single _ hfile_ne hfile_slash hfile_ne_dot,
      withExtFileName_no_dot hfile_dot]
    simp [List.append_assoc]
  | some s =>
    obtain ⟨hs1, hs2, hs3⟩ := hsf
    have hs_ne_dot : s.data ≠ ['.'] := by
      intro hcon
      exact hs3 (hcon ▸ List.mem_cons_self _ _)
    rw [channel_path]
    simp only
    rw [pathPush_single _ hs1 hs2 hs_ne_dot,
      pathPush_single _ hstem_ne hstem_slash hstem_ne_dot,
      joinWithExtension_single _ hfile_ne hfile_slash hfile_ne_dot,
      withExtFileName_no_dot hfile_dot]
    simp [List.append_assoc]

/-- C5 counterexample: channel-path construction is NOT injective over
all (name, tier, subfolder, channel-suffix) tuples.  With the material
name `A.x` (which contains a dot), `with_extension("jpg")` truncates the
file name at the dot, so the distinct channels Color and Metalness map to
the same path `materials/A.x_1K-JPG/A.jpg`. -/
theorem channel_path_not_injective :
    ("A.x", AmbientCGResolution.oneK, (none : Option String),
      Channel.color) ≠
      ("A.x", AmbientCGResolution.oneK, (none : Option String),
        Channel.metalness) ∧
    channel_path "materials" "A.x" .oneK none (channelSuffix .color) =
      channel_path "materials" "A.x" .oneK none
        (channelSuffix .metalness) := by
  constructor
  · decide
  · decide

/-- C5 (amended): channel-path construction is injective over
(name, tier, subfolder, channel) tuples provided the name contains no
separator or dot and the subfolder, when present, is a nonempty single
component without separator or dot (the counterexample
`channel_path_not_injective` shows a dot in the name breaks
injectivity). -/
theorem channel_path_injective (mp : String) (n₁ n₂ : String)
    (t₁ t₂ : AmbientCGResolution) (sf₁ sf₂ : Option String)
    (ch₁ ch₂ : Channel)
    (hn₁s : '/' ∉ n₁.data) (hn₁d : '.' ∉ n₁.data)
    (hn₂s : '/' ∉ n₂.data) (hn₂d : '.' ∉ n₂.data)
    (hsf₁ : cleanSub sf₁) (hsf₂ : cleanSub sf₂)
    (h : channel_path mp n₁ t₁ sf₁ (channelSuffix ch₁) =
      channel_path mp n₂ t₂ sf₂ (channelSuffix ch₂)) :
    n₁ = n₂ ∧ t₁ = t₂ ∧ sf₁ = sf₂ ∧ ch₁ = ch₂ := by
  rw [channel_path_eq mp n₁ t₁ sf₁ (channelSuffix ch₁) hn₁s hn₁d hsf₁
      (channelSuffix_slash_free ch₁) (channelSuffix_dot_free ch₁),
    channel_path_eq mp n₂ t₂ sf₂ (channelSuffix ch₂) hn₂s hn₂d hsf₂
      (channelSuffix_slash_free ch₂) (channelSuffix_dot_free ch₂)] at h
  have h2 := List.append_cancel_left h
  have hstem_and_file :
      (n₁ ++ "_" ++ t₁.display ++ "-JPG" = n₂ ++ "_" ++ t₂.display ++ "-JPG") ∧
      (n₁ ++ "_" ++ t₁.display ++ "-JPG" ++ channelSuffix ch₁ ++ "." ++ "jpg" =
        n₂ ++ "_" ++ t₂.display ++ "-JPG" ++ channelSuffix ch₂ ++ "." ++ "jpg") ∧
      sf₁ = sf₂ := by
    cases sf₁ with
    | none =>
      cases sf₂ with
      | none =>
        simp only [List.nil_append, List.cons.injEq, and_true] at h2
        exact ⟨h2.1, h2.2, rfl⟩
      | some s₂ =>
        have := congrArg List.length h2
        simp at this
    | some s₁ =>
      cases sf₂ with
      | none =>
        have := congrArg List.length h2
        simp at this
      | some s₂ =>
        simp only [List.cons_append, List.nil_append, List.cons.injEq,
          and_true] at h2
        exact ⟨h2.2.1, h2.2.2, by rw [h2.1]⟩
  obtain ⟨hstem, hfile, hsf⟩ := hstem_and_file
  have hstem' : n₁ ++ "_" ++ (t₁.display ++ "-JPG") =
      n₂ ++ "_" ++ (t₂.display ++ "-JPG") := by
    rw [← String.append_assoc, ← String.append_assoc]
    exact hstem
  obtain ⟨hname, hu⟩ := string_underscore_inj
    (display_JPG_underscore_free t₁) (display_JPG_underscore_free t₂) hstem'
  have ht := display_JPG_inj hu
  subst hname
  subst ht
  have hfile₁ := string_append_cancel_right hfile
  have hfile₂ := string_append_cancel_right hfile₁
  have hsuffix := string_append_cancel_left hfile₂
  exact ⟨rfl, rfl, hsf, channelSuffix_inj hsuffix⟩

/-- Witness for the amended C5 at concrete clean inputs. -/
theorem channel_path_injective_witness :
    ('/' ∉ ("Bricks001" : String).data) ∧
    ('.' ∉ ("Bricks001" : String).data) ∧
    cleanSub (some "walls") ∧
    channel_path "materials" "Bricks001" .twoK (some "walls")
        (channelSuffix .color) =
      channel_path "materials" "Bricks001" .twoK (some "walls")
        (channelSuffix .color) ∧
    ("Bricks001" : String) = "Bricks001" ∧
    AmbientCGResolution.twoK = AmbientCGResolution.twoK ∧
    (some "walls" = some "walls") ∧ Channel.color = Channel.color := by
  refine ⟨by decide, by decide, ⟨by decide, by decide, by decide⟩, rfl,
    ?_, ?_, ?_, ?_⟩ <;>
  · have := channel_path_injective "materials" "Bricks001" "Bricks001"
      .twoK .twoK (some "walls") (some "walls") .color .color
      (by decide) (by decide) (by decide) (by decide)
      ⟨by decide, by decide, by decide⟩ ⟨by decide, by decide, by decide⟩
      rfl
    tauto

/-! ## Images, channel packing and load -/

/-- Errors a load call can surface.  In the source these are panics
(`panic!` on negotiation failure, `expect` on decode failure,
`assert_eq!` on dimension mismatch); the model returns them as values,
parameterized by the revision's import-error type `ε`. -/
inductive LoadError (ε : Type) where
  | negotiationFailed (err : ε)
  | decodeFailure
  | dimensionMismatch
deriving DecidableEq, Repr

/-- A decoded single-channel (grayscale) image: dimensions plus the
sample at each coordinate. -/
structure GrayImage where
  width : Nat
  height : Nat
  pixel : Nat → Nat → Nat

/-- A three-channel image: dimensions plus the (channel 0, channel 1,
channel 2) samples at each coordinate. -/
structure RgbImage where
  width : Nat
  height : Nat
  pixel : Nat → Nat → Nat × Nat × Nat

/-- `load_grayscale_image`: decoding plus grayscale conversion is the
oracle `decode`; a `none` result models an unreadable/undecodable file,
on which the source's `expect` panics. -/
def load_grayscale_image {ε : Type} (decode : PathC → Option GrayImage)
    (path : PathC) : Except (LoadError ε) GrayImage :=
  match decode path with
  | some image => .ok image
  | none => .error .decodeFailure

/-- `create_roughness_metallic_image(roughness_path, metallic_path)`:
load both grayscale images, fail on unequal width or height (the two
`assert_eq!`s) before the output image exists, else produce the
three-channel image `(0, roughness sample, metallic sample)` per pixel —
where `roughness`/`metallic` name whatever the two path parameters
decoded to, in parameter order. -/
def create_roughness_metallic_image {ε : Type}
    (decode : PathC → Option GrayImage)
    (roughness_path metallic_path : PathC) :
    Except (LoadError ε) RgbImage :=
  match load_grayscale_image (ε := ε) decode roughness_path with
  | .error err => .error err
  | .ok roughness =>
    match load_grayscale_image (ε := ε) decode metallic_path with
    | .error err => .error err
    | .ok metallic =>
      if roughness.width ≠ metallic.width then .error .dimensionMismatch
      else if roughness.height ≠ metallic.height then
        .error .dimensionMismatch
      else
        .ok { width := roughness.width, height := roughness.height,
              pixel := fun x y =>
                (0, roughness.pixel x y, metallic.pixel x y) }

/-- A metallic-roughness slot entry: either a pass-through reference to a
texture file loaded from storage, or an in-memory synthesized image
registered with the asset server. -/
inductive MRTexture where
  | loaded (path : PathC)
  | synthesized (image : RgbImage)

/-- The UV transform put into the material: identity when the scale is
zero, else a pure scale (`Affine2::from_scale`). -/
inductive UvTransform where
  | identity
  | fromScale (scale : Vec2)
deriving DecidableEq, Repr

/-- The fields of bevy's `StandardMaterial` that `load_with_uv_scale`
sets.  Loaded textures are identified by their path (the asset server is
an opaque path-to-handle loader; all storage-loaded textures get the
wrap-repeat sampler settings, which carry no claim-relevant data). -/
structure StandardMaterialModel where
  base_color_texture : Option PathC
  metallic_roughness_texture : Option MRTexture
  metallic : ℚ
  normal_map_texture : Option PathC
  occlusion_texture : Option PathC
  perceptual_roughness : ℚ
  thickness_texture : Option PathC
  uv_transform : UvTransform

/-- The metallic-roughness packing branch of `load_with_uv_scale`
(lines 215-226 of `src/ambient_cg.rs`, identical in `src/lib.rs`).
NOTE: faithful to the source call site, the metallic absolute path is
passed as `create_roughness_metallic_image`'s `roughness_path` parameter
and the roughness absolute path as its `metallic_path` parameter. -/
def pack_metallic_roughness {ε : Type} (decode : PathC → Option GrayImage)
    (base : PathC) (metallic_texture_exists roughness_texture_exists : Bool)
    (metallic_texture_path roughness_texture_path : PathC) :
    Except (LoadError ε) (Option MRTexture) :=
  if metallic_texture_exists && roughness_texture_exists then
    match create_roughness_metallic_image (ε := ε) decode
        (absolute_resource_path base metallic_texture_path)
        (absolute_resource_path base roughness_texture_path) with
    | .error err => .error err
    | .ok image => .ok (some (.synthesized image))
  else if metallic_texture_exists then
    .ok (some (.loaded metallic_texture_path))
  else if roughness_texture_exists then
    .ok (some (.loaded roughness_texture_path))
  else
    .ok none

/-- `AmbientCGMaterial::load_with_uv_scale` from `src/ambient_cg.rs`:
build the material path from the configured root and optional subfolder;
negotiate the tier when enabled (a negotiation error panics — modelled as
`Except.error`); derive the six channel paths from the (possibly
negotiated) descriptor; existence-check each; load pass-through textures
for the four independent channels; pack metallic/roughness; assemble the
material record with fixed metallic = 1 and perceptual_roughness = 1 and
the UV transform (identity when the scale is zero). -/
def ACG.load_with_uv_scale (e : PathC → Bool)
    (decode : PathC → Option GrayImage) (cfg : AmbientCGConfig)
    (m : AmbientCGMaterial) (uv_scale : Vec2) (base : PathC) :
    Except (LoadError ACG.AmbientCGImportError) StandardMaterialModel :=
  let material_path := pathPush [] cfg.materials_path
  let material_path := match m.subfolder with
    | some subfolder => pathPush material_path subfolder
    | none => material_path
  let negotiated : Except (LoadError ACG.AmbientCGImportError)
      AmbientCGMaterial :=
    if cfg.resolution_negotiation then
      match ACG.negotiate_resolution e base material_path m with
      | .ok acm => .ok acm
      | .error err => .error (.negotiationFailed err)
    else
      .ok m
  match negotiated with
  | .error err => .error err
  | .ok ambient_cg_material =>
    let constructed_material_name := ambient_cg_material.name ++ "_" ++
      ambient_cg_material.resolution.display ++ "-JPG"
    let material_path := pathPush material_path constructed_material_name
    let occlusion_path := joinWithExtension material_path
      (constructed_material_name ++ "_AmbientOcclusion") "jpg"
    let base_color_path := joinWithExtension material_path
      (constructed_material_name ++ "_Color") "jpg"
    let thickness_path := joinWithExtension material_path
      (constructed_material_name ++ "_Displacement") "jpg"
    let metallic_texture_path := joinWithExtension material_path
      (constructed_material_name ++ "_Metalness") "jpg"
    let normal_map_path := joinWithExtension material_path
      (constructed_material_name ++ "_NormalGL") "jpg"
    let roughness_texture_path := joinWithExtension material_path
      (constructed_material_name ++ "_Roughness") "jpg"
    let occlusion_texture_exists :=
      e (absolute_resource_path base occlusion_path)
    let base_color_texture_exists :=
      e (absolute_resource_path base base_color_path)
    let thickness_texture_exists :=
      e (absolute_resource_path base thickness_path)
    let metallic_texture_exists :=
      e (absolute_resource_path base metallic_texture_path)
    let normal_map_texture_exists :=
      e (absolute_resource_path base normal_map_path)
    let roughness_texture_exists :=
      e (absolute_resource_path base roughness_texture_path)
    let occlusion_texture : Option PathC :=
      if occlusion_texture_exists then some occlusion_path else none
    let base_color_texture : Option PathC :=
      if base_color_texture_exists then some base_color_path else none
    let thickness_texture : Option PathC :=
      if thickness_texture_exists then some thickness_path else none
    let normal_map_texture : Option PathC :=
      if normal_map_texture_exists then some normal_map_path else none
    match pack_metallic_roughness (ε := ACG.AmbientCGImportError) decode
        base metallic_texture_exists roughness_texture_exists
        metallic_texture_path roughness_texture_path with
    | .error err => .error err
    | .ok metallic_roughness_texture =>
      .ok { base_color_texture, metallic_roughness_texture, metallic := 1,
            normal_map_texture, occlusion_texture,
            perceptual_roughness := 1, thickness_texture,
            uv_transform :=
              if uv_scale = ((0 : ℚ), (0 : ℚ)) then UvTransform.identity
              else UvTransform.fromScale uv_scale }

/-- Helper: the `src/lib.rs` `next_smaller` also steps to the immediate
predecessor. -/
theorem Lib.next_smaller_step_idx {t p : AmbientCGResolution}
    (h : Lib.next_smaller t = .ok p) : tierIdx t = tierIdx p + 1 := by
  cases t <;> cases p <;> simp_all [Lib.next_smaller, tierIdx]

/-- `AmbientCGMaterial::negotiate_resolution` from `src/lib.rs`: same
algorithm as the `src/ambient_cg.rs` revision, but tier exhaustion
surfaces this revision's `NotFound` error via its `next_smaller`. -/
def Lib.negotiate_resolution (e : PathC → Bool) (base : PathC)
    (materials_path : PathC) (m : AmbientCGMaterial) :
    Except Lib.AmbientCGImportError AmbientCGMaterial :=
  let constructed_material_name :=
    m.name ++ "_" ++ m.resolution.display ++ "-JPG"
  let resource_path := pathPush materials_path constructed_material_name
  if !(e (absolute_resource_path base resource_path)) then
    match h : Lib.next_smaller m.resolution with
    | .error err => .error err
    | .ok r =>
      Lib.negotiate_resolution e base materials_path
        { name := m.name, resolution := r,
          subfolder := m.subfolder, uv_scale := m.uv_scale }
  else
    .ok m
termination_by tierIdx m.resolution
decreasing_by
  have h2 := Lib.next_smaller_step_idx h
  omega

/-- `AmbientCGMaterial::load_with_uv_scale` from `src/lib.rs`: identical
to the `src/ambient_cg.rs` revision except that it calls this revision's
`negotiate_resolution` and therefore carries this revision's error
type. -/
def Lib.load_with_uv_scale (e : PathC → Bool)
    (decode : PathC → Option GrayImage) (cfg : AmbientCGConfig)
    (m : AmbientCGMaterial) (uv_scale : Vec2) (base : PathC) :
    Except (LoadError Lib.AmbientCGImportError) StandardMaterialModel :=
  let material_path := pathPush [] cfg.materials_path
  let material_path := match m.subfolder with
    | some subfolder => pathPush material_path subfolder
    | none => material_path
  let negotiated : Except (LoadError Lib.AmbientCGImportError)
      AmbientCGMaterial :=
    if cfg.resolution_negotiation then
      match Lib.negotiate_resolution e base material_path m with
      | .ok acm => .ok acm
      | .error err => .error (.negotiationFailed err)
    else
      .ok m
  match negotiated with
  | .error err => .error err
  | .ok ambient_cg_material =>
    let constructed_material_name := ambient_cg_material.name ++ "_" ++
      ambient_cg_material.resolution.display ++ "-JPG"
    let material_path := pathPush material_path constructed_material_name
    let occlusion_path := joinWithExtension material_path
      (constructed_material_name ++ "_AmbientOcclusion") "jpg"
    let base_color_path := joinWithExtension material_path
      (constructed_material_name ++ "_Color") "jpg"
    let thickness_path := joinWithExtension material_path
      (constructed_material_name ++ "_Displacement") "jpg"
    let metallic_texture_path := joinWithExtension material_path
      (constructed_material_name ++ "_Metalness") "jpg"
    let normal_map_path := joinWithExtension material_path
      (constructed_material_name ++ "_NormalGL") "jpg"
    let roughness_texture_path := joinWithExtension material_path
      (constructed_material_name ++ "_Roughness") "jpg"
    let occlusion_texture_exists :=
      e (absolute_resource_path base occlusion_path)
    let base_color_texture_exists :=
      e (absolute_resource_path base base_color_path)
    let thickness_texture_exists :=
      e (absolute_resource_path base thickness_path)
    let metallic_texture_exists :=
      e (absolute_resource_path base metallic_texture_path)
    let normal_map_texture_exists :=
      e (absolute_resource_path base normal_map_path)
    let roughness_texture_exists :=
      e (absolute_resource_path base roughness_texture_path)
    let occlusion_texture : Option PathC :=
      if occlusion_texture_exists then some occlusion_path else none
    let base_color_texture : Option PathC :=
      if base_color_texture_exists then some base_color_path else none
    let thickness_texture : Option PathC :=
      if thickness_texture_exists then some thickness_path else none
    let normal_map_texture : Option PathC :=
      if normal_map_texture_exists then some normal_map_path else none
    match pack_metallic_roughness (ε := Lib.AmbientCGImportError) decode
        base metallic_texture_exists roughness_texture_exists
        metallic_texture_path roughness_texture_path with
    | .error err => .error err
    | .ok metallic_roughness_texture =>
      .ok { base_color_texture, metallic_roughness_texture, metallic := 1,
            normal_map_texture, occlusion_texture,
            perceptual_roughness := 1, thickness_texture,
            uv_transform :=
              if uv_scale = ((0 : ℚ), (0 : ℚ)) then UvTransform.identity
              else UvTransform.fromScale uv_scale }

/-- C3: the packing policy table.  When metalness and roughness are both
present (and both sources decode with matching dimensions), the slot
holds a synthesized combined map — not a pass-through reference to either
original; when only metalness is present, a pass-through reference to the
metalness map; when only roughness, a pass-through reference to the
roughness map; when neither, the slot is absent. -/
theorem pack_metallic_roughness_policy {ε : Type}
    (decode : PathC → Option GrayImage) (base mp rp : PathC) :
    ((∃ a b, decode (absolute_resource_path base mp) = some a ∧
        decode (absolute_resource_path base rp) = some b ∧
        a.width = b.width ∧ a.height = b.height) →
      ∃ img, pack_metallic_roughness (ε := ε) decode base true true mp rp =
        .ok (some (.synthesized img))) ∧
    pack_metallic_roughness (ε := ε) decode base true false mp rp =
      .ok (some (.loaded mp)) ∧
    pack_metallic_roughness (ε := ε) decode base false true mp rp =
      .ok (some (.loaded rp)) ∧
    pack_metallic_roughness (ε := ε) decode base false false mp rp =
      .ok none := by
  refine ⟨?_, by simp [pack_metallic_roughness],
    by simp [pack_metallic_roughness], by simp [pack_metallic_roughness]⟩
  rintro ⟨a, b, ha, hb, hw, hh⟩
  refine ⟨{ width := a.width, height := a.height,
            pixel := fun x y => (0, a.pixel x y, b.pixel x y) }, ?_⟩
  simp [pack_metallic_roughness, create_roughness_metallic_image,
    load_grayscale_image, ha, hb, hw, hh]

/-- Witness for C3: with a decode oracle returning a fixed 1×1 image,
the both-present case produces a synthesized map. -/
theorem pack_metallic_roughness_policy_witness :
    (∃ a b,
      (fun _ : PathC => some ⟨1, 1, fun _ _ => 7⟩ : PathC → Option GrayImage)
          (absolute_resource_path [] ["m"]) = some a ∧
      (fun _ : PathC => some ⟨1, 1, fun _ _ => 7⟩ : PathC → Option GrayImage)
          (absolute_resource_path [] ["r"]) = some b ∧
      a.width = b.width ∧ a.height = b.height) ∧
    ∃ img, pack_metallic_roughness (ε := Unit)
        (fun _ => some ⟨1, 1, fun _ _ => 7⟩) [] true true ["m"] ["r"] =
      .ok (some (.synthesized img)) := by
  refine ⟨⟨⟨1, 1, fun _ _ => 7⟩, ⟨1, 1, fun _ _ => 7⟩, rfl, rfl, rfl, rfl⟩, ?_⟩
  exact (pack_metallic_roughness_policy (ε := Unit)
      (fun _ => some ⟨1, 1, fun _ _ => 7⟩) [] ["m"] ["r"]).1
    ⟨⟨1, 1, fun _ _ => 7⟩, ⟨1, 1, fun _ _ => 7⟩, rfl, rfl, rfl, rfl⟩

/-- The absolute paths of the six channel files derived from the
requested (un-negotiated) descriptor. -/
def channel_abs_paths (base : PathC) (cfg : AmbientCGConfig)
    (m : AmbientCGMaterial) : List PathC :=
  [absolute_resource_path base (channel_path cfg.materials_path m.name
      m.resolution m.subfolder "_AmbientOcclusion"),
   absolute_resource_path base (channel_path cfg.materials_path m.name
      m.resolution m.subfolder "_Color"),
   absolute_resource_path base (channel_path cfg.materials_path m.name
      m.resolution m.subfolder "_Displacement"),
   absolute_resource_path base (channel_path cfg.materials_path m.name
      m.resolution m.subfolder "_Metalness"),
   absolute_resource_path base (channel_path cfg.materials_path m.name
      m.resolution m.subfolder "_NormalGL"),
   absolute_resource_path base (channel_path cfg.materials_path m.name
      m.resolution m.subfolder "_Roughness")]

/-- With negotiation disabled, a load reduces to path construction at the
requested tier, the six channel existence checks, packing, and
assembly. -/
theorem ACG.load_with_uv_scale_disabled_eq (e : PathC → Bool)
    (decode : PathC → Option GrayImage) (cfg : AmbientCGConfig)
    (m : AmbientCGMaterial) (uv_scale : Vec2) (base : PathC)
    (hneg : cfg.resolution_negotiation = false) :
    ACG.load_with_uv_scale e decode cfg m uv_scale base =
      match pack_metallic_roughness (ε := ACG.AmbientCGImportError) decode
          base
          (e (absolute_resource_path base (channel_path cfg.materials_path
            m.name m.resolution m.subfolder "_Metalness")))
          (e (absolute_resource_path base (channel_path cfg.materials_path
            m.name m.resolution m.subfolder "_Roughness")))
          (channel_path cfg.materials_path m.name m.resolution m.subfolder
            "_Metalness")
          (channel_path cfg.materials_path m.name m.resolution m.subfolder
            "_Roughness") with
      | .error err => .error err
      | .ok metallic_roughness_texture =>
        .ok { base_color_texture :=
                if e (absolute_resource_path base (channel_path
                    cfg.materials_path m.name m.resolution m.subfolder
                    "_Color")) then
                  some (channel_path cfg.materials_path m.name m.resolution
                    m.subfolder "_Color")
                else none,
              metallic_roughness_texture,
              metallic := 1,
              normal_map_texture :=
                if e (absolute_resource_path base (channel_path
                    cfg.materials_path m.name m.resolution m.subfolder
                    "_NormalGL")) then
                  some (channel_path cfg.materials_path m.name m.resolution
                    m.subfolder "_NormalGL")
                else none,
              occlusion_texture :=
                if e (absolute_resource_path base (channel_path
                    cfg.materials_path m.name m.resolution m.subfolder
                    "_AmbientOcclusion")) then
                  some (channel_path cfg.materials_path m.name m.resolution
                    m.subfolder "_AmbientOcclusion")
                else none,
              perceptual_roughness := 1,
              thickness_texture :=
                if e (absolute_resource_path base (channel_path
                    cfg.materials_path m.name m.resolution m.subfolder
                    "_Displacement")) then
                  some (channel_path cfg.materials_path m.name m.resolution
                    m.subfolder "_Displacement")
                else none,
              uv_transform :=
                if uv_scale = ((0 : ℚ), (0 : ℚ)) then UvTransform.identity
                else UvTransform.fromScale uv_scale } := by
  rw [ACG.load_with_uv_scale]
  rw [hneg]
  rfl

/-- C8: with negotiation disabled, the requested tier is used as-is
(every path below is built from `m.resolution` unchanged) and no
existence check is performed for the tier directory: the load outcome
depends on the oracle only at the six channel paths.  When all six are
absent the load completes without error, yielding a material with every
texture slot `none`. -/
theorem negotiation_disabled_behavior (e e₂ : PathC → Bool)
    (decode : PathC → Option GrayImage) (cfg : AmbientCGConfig)
    (m : AmbientCGMaterial) (uv_scale : Vec2) (base : PathC)
    (hneg : cfg.resolution_negotiation = false) :
    ((∀ p ∈ channel_abs_paths base cfg m, e p = e₂ p) →
      ACG.load_with_uv_scale e decode cfg m uv_scale base =
        ACG.load_with_uv_scale e₂ decode cfg m uv_scale base) ∧
    ((∀ p ∈ channel_abs_paths base cfg m, e p = false) →
      ACG.load_with_uv_scale e decode cfg m uv_scale base =
        .ok { base_color_texture := none,
              metallic_roughness_texture := none,
              metallic := 1,
              normal_map_texture := none,
              occlusion_texture := none,
              perceptual_roughness := 1,
              thickness_texture := none,
              uv_transform :=
                if uv_scale = ((0 : ℚ), (0 : ℚ)) then UvTransform.identity
                else UvTransform.fromScale uv_scale }) := by
  constructor
  · intro hagree
    have hOc := hagree (absolute_resource_path base (channel_path
      cfg.materials_path m.name m.resolution m.subfolder
      "_AmbientOcclusion")) (by simp [channel_abs_paths])
    have hCo := hagree (absolute_resource_path base (channel_path
      cfg.materials_path m.name m.resolution m.subfolder "_Color"))
      (by simp [channel_abs_paths])
    have hDi := hagree (absolute_resource_path base (channel_path
      cfg.materials_path m.name m.resolution m.subfolder "_Displacement"))
      (by simp [channel_abs_paths])
    have hMe := hagree (absolute_resource_path base (channel_path
      cfg.materials_path m.name m.resolution m.subfolder "_Metalness"))
      (by simp [channel_abs_paths])
    have hNo := hagree (absolute_resource_path base (channel_path
      cfg.materials_path m.name m.resolution m.subfolder "_NormalGL"))
      (by simp [channel_abs_paths])
    have hRo := hagree (absolute_resource_path base (channel_path
      cfg.materials_path m.name m.resolution m.subfolder "_Roughness"))
      (by simp [channel_abs_paths])
    rw [ACG.load_with_uv_scale_disabled_eq e decode cfg m uv_scale base hneg,
      ACG.load_with_uv_scale_disabled_eq e₂ decode cfg m uv_scale base hneg,
      hOc, hCo, hDi, hMe, hNo, hRo]
  · intro habs
    have hOc := habs (absolute_resource_path base (channel_path
      cfg.materials_path m.name m.resolution m.subfolder
      "_AmbientOcclusion")) (by simp [channel_abs_paths])
    have hCo := habs (absolute_resource_path base (channel_path
      cfg.materials_path m.name m.resolution m.subfolder "_Color"))
      (by simp [channel_abs_paths])
    have hDi := habs (absolute_resource_path base (channel_path
      cfg.materials_path m.name m.resolution m.subfolder "_Displacement"))
      (by simp [channel_abs_paths])
    have hMe := habs (absolute_resource_path base (channel_path
      cfg.materials_path m.name m.resolution m.subfolder "_Metalness"))
      (by simp [channel_abs_paths])
    have hNo := habs (absolute_resource_path base (channel_path
      cfg.materials_path m.name m.resolution m.subfolder "_NormalGL"))
      (by simp [channel_abs_paths])
    have hRo := habs (absolute_resource_path base (channel_path
      cfg.materials_path m.name m.resolution m.subfolder "_Roughness"))
      (by simp [channel_abs_paths])
    rw [ACG.load_with_uv_scale_disabled_eq e decode cfg m uv_scale base hneg,
      hOc, hCo, hDi, hMe, hNo, hRo]
    simp [pack_metallic_roughness]

/-- Witness for C8: negotiation disabled, nothing exists — the load
returns the all-absent material with the identity UV transform. -/
theorem negotiation_disabled_behavior_witness :
    ACG.load_with_uv_scale (fun _ => false) (fun _ => none)
      { materials_path := "materials", resolution_negotiation := false }
      { name := "Bricks001", resolution := .oneK,
        subfolder := none, uv_scale := none } ((0 : ℚ), (0 : ℚ)) [] =
    .ok { base_color_texture := none,
          metallic_roughness_texture := none,
          metallic := 1,
          normal_map_texture := none,
          occlusion_texture := none,
          perceptual_roughness := 1,
          thickness_texture := none,
          uv_transform :=
            if ((0 : ℚ), (0 : ℚ)) = ((0 : ℚ), (0 : ℚ)) then
              UvTransform.identity
            else UvTransform.fromScale ((0 : ℚ), (0 : ℚ)) } :=
  (negotiation_disabled_behavior (fun _ => false) (fun _ => false)
    (fun _ => none)
    { materials_path := "materials", resolution_negotiation := false }
    { name := "Bricks001", resolution := .oneK,
      subfolder := none, uv_scale := none } ((0 : ℚ), (0 : ℚ)) []
    rfl).2 (fun _ _ => rfl)

/-- C4: when the two sources for the combined map differ in width or in
height, synthesis fails with the dimension-mismatch error (the source's
`assert_eq!` panics fire before the output image is allocated or any
pixel written; in the model the output exists only in the `ok` branch,
after both checks), and a load call reaching synthesis with such sources
yields an error — no material.  In the load conjunct `a` is the decoded
metalness source and `b` the decoded roughness source (the call site
passes the metalness path as the `roughness_path` parameter). -/
theorem dimension_mismatch_fatal :
    (∀ {ε : Type} (decode : PathC → Option GrayImage)
      (roughness_path metallic_path : PathC) (a b : GrayImage),
      decode roughness_path = some a → decode metallic_path = some b →
      (a.width ≠ b.width ∨ a.height ≠ b.height) →
      create_roughness_metallic_image (ε := ε) decode roughness_path
        metallic_path = .error .dimensionMismatch) ∧
    (∀ (e : PathC → Bool) (decode : PathC → Option GrayImage)
      (cfg : AmbientCGConfig) (m : AmbientCGMaterial) (uv_scale : Vec2)
      (base : PathC) (a b : GrayImage),
      cfg.resolution_negotiation = false →
      e (absolute_resource_path base (channel_path cfg.materials_path
        m.name m.resolution m.subfolder "_Metalness")) = true →
      e (absolute_resource_path base (channel_path cfg.materials_path
        m.name m.resolution m.subfolder "_Roughness")) = true →
      decode (absolute_resource_path base (channel_path cfg.materials_path
        m.name m.resolution m.subfolder "_Metalness")) = some a →
      decode (absolute_resource_path base (channel_path cfg.materials_path
        m.name m.resolution m.subfolder "_Roughness")) = some b →
      (a.width ≠ b.width ∨ a.height ≠ b.height) →
      ACG.load_with_uv_scale e decode cfg m uv_scale base =
        .error .dimensionMismatch) := by
  have hcreate : ∀ {ε : Type} (decode : PathC → Option GrayImage)
      (roughness_path metallic_path : PathC) (a b : GrayImage),
      decode roughness_path = some a → decode metallic_path = some b →
      (a.width ≠ b.width ∨ a.height ≠ b.height) →
      create_roughness_metallic_image (ε := ε) decode roughness_path
        metallic_path = .error .dimensionMismatch := by
    intro ε decode rp mp a b ha hb hdiff
    rcases hdiff with hd | hd
    · simp [create_roughness_metallic_image, load_grayscale_image,
        ha, hb, hd]
    · by_cases hw : a.width = b.width
      · simp [create_roughness_metallic_image, load_grayscale_image,
          ha, hb, hw, hd]
      · simp [create_roughness_metallic_image, load_grayscale_image,
          ha, hb, hw]
  refine ⟨hcreate, ?_⟩
  intro e decode cfg m uv_scale base a b hneg hMe hRo hda hdb hdiff
  rw [ACG.load_with_uv_scale_disabled_eq e decode cfg m uv_scale base hneg,
    hMe, hRo]
  rw [pack_metallic_roughness]
  simp only [Bool.and_self, if_true]
  rw [hcreate decode _ _ a b hda hdb hdiff]

/-- Witness for C4 at two concretely mismatched 1×1 / 2×1 sources. -/
theorem dimension_mismatch_fatal_witness :
    ((fun p : PathC => if p = ["r"] then
        some ⟨1, 1, fun _ _ => 0⟩ else some ⟨2, 1, fun _ _ => 0⟩ :
      PathC → Option GrayImage) ["r"] = some ⟨1, 1, fun _ _ => 0⟩) ∧
    ((fun p : PathC => if p = ["r"] then
        some ⟨1, 1, fun _ _ => 0⟩ else some ⟨2, 1, fun _ _ => 0⟩ :
      PathC → Option GrayImage) ["m"] = some ⟨2, 1, fun _ _ => 0⟩) ∧
    create_roughness_metallic_image (ε := Unit)
      (fun p => if p = ["r"] then
        some ⟨1, 1, fun _ _ => 0⟩ else some ⟨2, 1, fun _ _ => 0⟩)
      ["r"] ["m"] = .error .dimensionMismatch := by
  refine ⟨rfl, rfl, ?_⟩
  exact dimension_mismatch_fatal.1
    (fun p => if p = ["r"] then
      some ⟨1, 1, fun _ _ => 0⟩ else some ⟨2, 1, fun _ _ => 0⟩)
    ["r"] ["m"] ⟨1, 1, fun _ _ => 0⟩ ⟨2, 1, fun _ _ => 0⟩ rfl rfl
    (Or.inl (by decide))

/-- The (channel 0, channel 1, channel 2) samples of the synthesized
combined map inside a load result, at one coordinate; `none` when the
load failed or the slot is not a synthesized map. -/
def mr_pixel
    (r : Except (LoadError ACG.AmbientCGImportError) StandardMaterialModel)
    (x y : Nat) : Option (Nat × Nat × Nat) :=
  match r with
  | .ok sm =>
    match sm.metallic_roughness_texture with
    | some (.synthesized image) => some (image.pixel x y)
    | _ => none
  | .error _ => none

/-- C1 refutation: the load pipeline passes the metalness absolute path
as `create_roughness_metallic_image`'s `roughness_path` parameter and
vice versa, so the synthesized combined map carries the METALNESS sample
in channel 1 and the ROUGHNESS sample in channel 2 — the opposite of the
claim (and of the crate's own module documentation).  Here the roughness
source decodes to the constant sample 10 and the metalness source to 20
(both 1×1), yet the combined pixel (0,0) is (0, 20, 10), not
(0, 10, 20). -/
theorem combined_map_channels_swapped :
    ((fun p : PathC =>
        if p = ["assets", "materials", "Ex_1K-JPG",
                "Ex_1K-JPG_Roughness.jpg"] then
          some ⟨1, 1, fun _ _ => 10⟩
        else some ⟨1, 1, fun _ _ => 20⟩ : PathC → Option GrayImage)
      ["assets", "materials", "Ex_1K-JPG", "Ex_1K-JPG_Roughness.jpg"] =
        some ⟨1, 1, fun _ _ => 10⟩) ∧
    ((fun p : PathC =>
        if p = ["assets", "materials", "Ex_1K-JPG",
                "Ex_1K-JPG_Roughness.jpg"] then
          some ⟨1, 1, fun _ _ => 10⟩
        else some ⟨1, 1, fun _ _ => 20⟩ : PathC → Option GrayImage)
      ["assets", "materials", "Ex_1K-JPG", "Ex_1K-JPG_Metalness.jpg"] =
        some ⟨1, 1, fun _ _ => 20⟩) ∧
    mr_pixel (ACG.load_with_uv_scale (fun _ => true)
      (fun p =>
        if p = ["assets", "materials", "Ex_1K-JPG",
                "Ex_1K-JPG_Roughness.jpg"] then
          some ⟨1, 1, fun _ _ => 10⟩
        else some ⟨1, 1, fun _ _ => 20⟩)
      { materials_path := "materials", resolution_negotiation := false }
      { name := "Ex", resolution := .oneK, subfolder := none,
        uv_scale := none }
      ((0 : ℚ), (0 : ℚ)) []) 0 0 = some (0, 20, 10) ∧
    mr_pixel (ACG.load_with_uv_scale (fun _ => true)
      (fun p =>
        if p = ["assets", "materials", "Ex_1K-JPG",
                "Ex_1K-JPG_Roughness.jpg"] then
          some ⟨1, 1, fun _ _ => 10⟩
        else some ⟨1, 1, fun _ _ => 20⟩)
      { materials_path := "materials", resolution_negotiation := false }
      { name := "Ex", resolution := .oneK, subfolder := none,
        uv_scale := none }
      ((0 : ℚ), (0 : ℚ)) []) 0 0 ≠ some (0, 10, 20) := by
  refine ⟨rfl, rfl, rfl, ?_⟩
  intro hcon
  rw [show mr_pixel (ACG.load_with_uv_scale (fun _ => true)
      (fun p =>
        if p = ["assets", "materials", "Ex_1K-JPG",
                "Ex_1K-JPG_Roughness.jpg"] then
          some ⟨1, 1, fun _ _ => 10⟩
        else some ⟨1, 1, fun _ _ => 20⟩)
      { materials_path := "materials", resolution_negotiation := false }
      { name := "Ex", resolution := .oneK, subfolder := none,
        uv_scale := none }
      ((0 : ℚ), (0 : ℚ)) []) 0 0 = some (0, 20, 10) from rfl] at hcon
  simp at hcon

/-- The tier-exhaustion error of `src/ambient_cg.rs` corresponds to the
(only) error of `src/lib.rs`. -/
def errMap : ACG.AmbientCGImportError → Lib.AmbientCGImportError :=
  fun _ => ⟨.notFound⟩

/-- Load-error correspondence between the two revisions: panics map to
the same panics, negotiation failures map through `errMap`. -/
def loadErrMap :
    LoadError ACG.AmbientCGImportError → LoadError Lib.AmbientCGImportError
  | .negotiationFailed err => .negotiationFailed (errMap err)
  | .decodeFailure => .decodeFailure
  | .dimensionMismatch => .dimensionMismatch

/-- The synthesis step is identical in the two revisions up to the error
mapping. -/
theorem create_roughness_metallic_image_mapError
    (decode : PathC → Option GrayImage) (rp mp : PathC) :
    create_roughness_metallic_image (ε := Lib.AmbientCGImportError)
        decode rp mp =
      (create_roughness_metallic_image (ε := ACG.AmbientCGImportError)
        decode rp mp).mapError loadErrMap := by
  rw [create_roughness_metallic_image, create_roughness_metallic_image]
  cases h1 : decode rp <;> cases h2 : decode mp <;>
    simp only [load_grayscale_image, h1, h2, Except.mapError, loadErrMap]
  split_ifs <;> simp [Except.mapError, loadErrMap]

/-- The packing step is identical in the two revisions up to the error
mapping. -/
theorem pack_metallic_roughness_mapError
    (decode : PathC → Option GrayImage) (base : PathC) (me re : Bool)
    (mp rp : PathC) :
    pack_metallic_roughness (ε := Lib.AmbientCGImportError) decode base
        me re mp rp =
      (pack_metallic_roughness (ε := ACG.AmbientCGImportError) decode base
        me re mp rp).mapError loadErrMap := by
  rw [pack_metallic_roughness, pack_metallic_roughness]
  cases me <;> cases re <;>
    simp only [Bool.and_self, Bool.and_false, Bool.false_and,
      Bool.and_true, Bool.true_and, if_true, if_false, Bool.false_eq_true,
      Except.mapError]
  · rw [create_roughness_metallic_image_mapError]
    cases hc : create_roughness_metallic_image
        (ε := ACG.AmbientCGImportError) decode
        (absolute_resource_path base mp)
        (absolute_resource_path base rp) <;>
      simp [Except.mapError]

/-- C9: the two source revisions are semantically equivalent: for every
tier, oracle, configuration and descriptor, `next_smaller`,
`negotiate_resolution` and `load_with_uv_scale` of `src/lib.rs` produce
exactly the results of `src/ambient_cg.rs` mapped through
`errMap`/`loadErrMap` — identical successes, and failures under the same
conditions differing only in the error kind's name (`NoSmallerRes`
versus `NotFound` on tier exhaustion). -/
theorem revisions_equivalent :
    (∀ t, Lib.next_smaller t = (ACG.next_smaller t).mapError errMap) ∧
    (∀ (e : PathC → Bool) (base mp : PathC) (m : AmbientCGMaterial),
      Lib.negotiate_resolution e base mp m =
        (ACG.negotiate_resolution e base mp m).mapError errMap) ∧
    (∀ (e : PathC → Bool) (decode : PathC → Option GrayImage)
      (cfg : AmbientCGConfig) (m : AmbientCGMaterial) (uv_scale : Vec2)
      (base : PathC),
      Lib.load_with_uv_scale e decode cfg m uv_scale base =
        (ACG.load_with_uv_scale e decode cfg m uv_scale base).mapError
          loadErrMap) := by
  have h1 : ∀ t, Lib.next_smaller t = (ACG.next_smaller t).mapError errMap := by
    intro t
    cases t <;> rfl
  have h2 : ∀ (e : PathC → Bool) (base mp : PathC) (m : AmbientCGMaterial),
      Lib.negotiate_resolution e base mp m =
        (ACG.negotiate_resolution e base mp m).mapError errMap := by
    intro e base mp
    suffices H : ∀ n (m : AmbientCGMaterial), tierIdx m.resolution ≤ n →
        Lib.negotiate_resolution e base mp m =
          (ACG.negotiate_resolution e base mp m).mapError errMap by
      intro m
      exact H (tierIdx m.resolution) m le_rfl
    intro n
    induction n with
    | zero =>
      intro m hle
      rw [Lib.negotiate_resolution, ACG.negotiate_resolution]
      cases he : e (absolute_resource_path base
          (pathPush mp (m.name ++ "_" ++ m.resolution.display ++ "-JPG"))) with
      | true => simp [he, Except.mapError]
      | false =>
        simp only [he, Bool.not_false, if_true]
        cases hn : ACG.next_smaller m.resolution with
        | error err =>
          rw [h1 m.resolution, hn]
          simp [Except.mapError]
        | ok r =>
          have hidx := ACG.next_smaller_idx hn
          omega
    | succ n ih =>
      intro m hle
      rw [Lib.negotiate_resolution, ACG.negotiate_resolution]
      cases he : e (absolute_resource_path base
          (pathPush mp (m.name ++ "_" ++ m.resolution.display ++ "-JPG"))) with
      | true => simp [he, Except.mapError]
      | false =>
        simp only [he, Bool.not_false, if_true]
        cases hn : ACG.next_smaller m.resolution with
        | error err =>
          rw [h1 m.resolution, hn]
          simp [Except.mapError]
        | ok r =>
          have hidx := ACG.next_smaller_idx hn
          rw [h1 m.resolution, hn]
          simp only [Except.mapError]
          have hler : tierIdx r ≤ n := by omega
          exact ih { name := m.name, resolution := r,
                     subfolder := m.subfolder, uv_scale := m.uv_scale } hler
  refine ⟨h1, h2, ?_⟩
  intro e decode cfg m uv_scale base
  rw [Lib.load_with_uv_scale, ACG.load_with_uv_scale]
  cases hflag : cfg.resolution_negotiation with
  | false =>
    simp only [hflag, Bool.false_eq_true, if_false]
    rw [pack_metallic_roughness_mapError]
    cases hp : pack_metallic_roughness (ε := ACG.AmbientCGImportError)
        decode base _ _ _ _ <;> simp [Except.mapError]
  | true =>
    simp only [hflag, if_true]
    rw [h2]
    cases hn : ACG.negotiate_resolution e base
        (match m.subfolder with
         | some subfolder =>
            pathPush (pathPush [] cfg.materials_path) subfolder
         | none => pathPush [] cfg.materials_path) m with
    | error err => simp [Except.mapError, loadErrMap]
    | ok acm =>
      simp only [Except.mapError]
      rw [pack_metallic_roughness_mapError]
      cases hp : pack_metallic_roughness (ε := ACG.AmbientCGImportError)
          decode base _ _ _ _ <;> simp [Except.mapError]

/-- Witness for C10: one concrete descent step decreases the tier, and a
16K start with an all-true oracle stays within the step bound. -/
theorem negotiate_resolution_terminates_witness :
    tierIdx AmbientCGResolution.oneK < tierIdx AmbientCGResolution.twoK ∧
    ACG.negotiate_resolution_steps (fun _ => true) [] ["materials"]
      { name := "Bricks001", resolution := .sixteenK,
        subfolder := none, uv_scale := none } ≤
      tierIdx AmbientCGResolution.sixteenK + 1 :=
  ⟨negotiate_resolution_terminates.1 .twoK .oneK rfl,
   (negotiate_resolution_terminates.2 (fun _ => true) [] ["materials"]
     { name := "Bricks001", resolution := .sixteenK,
       subfolder := none, uv_scale := none }).1⟩
